import Mathlib

/-!
Verification development for the malloy SQLite backend.

The definitions below are shallow embeddings of the TypeScript sources:
  - the SQLite dialect (`packages/malloy/src/dialect/sqlite/sqlite.ts`):
    native→canonical type mapping, group-set emulation, time literals;
  - the round-to-precision SQL template
    (`packages/malloy/src/dialect/sqlite/function_overrides.ts`);
  - the connection layer (`packages/malloy-db-sqlite/src/sqlite_connection.ts`):
    minimum-version check, select-schema introspection;
  - the user-defined functions (`packages/malloy-db-sqlite/src/udf_functions.ts`):
    `regexp_replace`, `reverse`, and the windowed `set_concat` aggregate.

JavaScript strings are modelled as Lean `String` (a sequence of unicode
scalar values, i.e. code points); `toLocaleLowerCase` is modelled as
ASCII case folding, which agrees with it on the ASCII keyword domain used
by the type mapper.  Fallible operations return `Except`/`Option`; a
thrown `Error` is an `Except.error`.
-/

set_option maxRecDepth 20000

namespace Malloy

/-- The `numberType` field of a canonical number type. -/
inductive NumberType where
  | integer
  | float
deriving DecidableEq, Repr

/-- Canonical atomic malloy types, `LeafAtomicTypeDef` in the model:
tagged variant over string, number(integer|float), boolean, date,
timestamp and sql-native carrying the raw native type string. -/
inductive LeafAtomicTypeDef where
  | string
  | number (numberType : NumberType)
  | boolean
  | date
  | timestamp
  | sqlNative (rawType : String)
deriving DecidableEq, Repr

/-- JS `\w` character class (no unicode flag): `[A-Za-z0-9_]`. -/
def isWordChar (c : Char) : Bool := c.isAlphanum || c = '_'

/-- ASCII case folding; models `toLocaleLowerCase` on the ASCII keyword
domain of the native type table. -/
def jsToLower (s : String) : String := ⟨s.data.map Char.toLower⟩

/-- The `sqliteToMallyTypes` table from `sqlite.ts` (spelling kept from the
source), as an association list in source order. -/
def sqliteToMallyTypes : List (String × LeafAtomicTypeDef) := [
  -- Core types
  ("text", .string),
  ("integer", .number .integer),
  ("real", .number .float),
  ("numeric", .number .float),
  -- Common affinities
  -- Integer
  ("int", .number .integer),
  ("bigint", .number .integer),
  ("tinyint", .number .integer),
  ("smallint", .number .integer),
  ("mediumint", .number .integer),
  ("int2", .number .integer),
  ("int8", .number .integer),
  ("unsigned big int", .number .integer),
  -- Real
  ("float", .number .float),
  ("double", .number .float),
  ("double precision", .number .float),
  -- Numeric
  ("decimal", .number .float),
  -- String
  ("varchar", .string),
  ("nvarchar", .string),
  ("nchar", .string),
  ("clob", .string),
  ("native character", .string),
  ("varying character", .string),
  -- Date time
  ("datetime", .timestamp),
  ("date", .date),
  ("boolean", .boolean)]

/-- Record lookup `sqliteToMallyTypes[key]`. -/
def lookupMalloyType (key : String) : Option LeafAtomicTypeDef :=
  sqliteToMallyTypes.lookup key

/-- Models `sqlType.match(/^(\w+)/)?.at(0) ?? sqlType`: the leading run of word
characters, or the whole string when it does not start with one. -/
def baseSqlType (sqlType : String) : String :=
  let w := sqlType.data.takeWhile isWordChar
  if w.isEmpty then sqlType else ⟨w⟩

/-- Embeds `SqliteDialect.sqlTypeToMalloyType` from `sqlite.ts`: extract the leading
keyword, lowercase it, look it up; unknown types fall through to
sql-native carrying the input verbatim (the function is total: it never
throws). -/
def sqlTypeToMalloyType (sqlType : String) : LeafAtomicTypeDef :=
  match lookupMalloyType (jsToLower (baseSqlType sqlType)) with
  | some mappedType => mappedType
  | none => .sqlNative sqlType

/-- ASCII case folding can only turn an uppercase letter into a lowercase
one, so a character whose lowercase form is a word character is itself a
word character. -/
theorem isWordChar_of_toLower {c : Char} (h : isWordChar c.toLower = true) :
    isWordChar c = true := by
  by_cases hc : c.toNat ≥ 65 ∧ c.toNat ≤ 90
  · have h1 : c.isUpper = true := by
      simp only [Char.toNat] at hc
      simp [Char.isUpper]
      exact ⟨hc.1, hc.2⟩
    simp [isWordChar, Char.isAlphanum, Char.isAlpha, h1]
  · have heq : c.toLower = c := by
      unfold Char.toLower
      exact if_neg hc
    rwa [heq] at h

/-- Helper: `takeWhile` over an append whose left part satisfies the predicate
everywhere and whose right part starts by failing it yields the left part. -/
theorem takeWhile_append_left {p : Char → Bool} (l1 l2 : List Char)
    (h1 : ∀ c ∈ l1, p c = true) (h2 : l2.takeWhile p = []) :
    (l1 ++ l2).takeWhile p = l1 := by
  rw [List.takeWhile_append]
  have hself : l1.takeWhile p = l1 := List.takeWhile_eq_self_iff.mpr h1
  rw [hself]
  simp [h2]

end Malloy

namespace Malloy

/-- C2 (amended): for every supported native type keyword `k` consisting
only of word characters (i.e. every single-word key of the table), any
letter-case variant `u` of `k`, followed by an arbitrary trailing modifier
`s` that does not begin with a word character, is mapped by
`sqlTypeToMalloyType` to the table's canonical variant for `k` — e.g.
`VARCHAR(255)`, `varchar` and `VarChar` all map to the string variant.
(The three multi-word keys are unreachable, see the counterexample.) -/
theorem sqlTypeToMalloyType_keyword_insensitive
    (k : String) (v : LeafAtomicTypeDef)
    (hk : lookupMalloyType k = some v)
    (hne : k ≠ "")
    (hw : ∀ c ∈ k.data, isWordChar c = true)
    (u : String) (hu : jsToLower u = k)
    (s : String) (hs : s.data.takeWhile isWordChar = []) :
    sqlTypeToMalloyType (u ++ s) = v := by
  have hmap : u.data.map Char.toLower = k.data := by
    have : (jsToLower u).data = k.data := by rw [hu]
    simpa [jsToLower] using this
  have huw : ∀ c ∈ u.data, isWordChar c = true := by
    intro c hc
    have : c.toLower ∈ k.data := hmap ▸ List.mem_map_of_mem Char.toLower hc
    exact isWordChar_of_toLower (hw _ this)
  have hud : u.data ≠ [] := by
    intro hnil
    apply hne
    apply String.ext
    rw [← hmap, hnil]
    rfl
  have htake : (u ++ s).data.takeWhile isWordChar = u.data := by
    rw [String.data_append]
    exact takeWhile_append_left _ _ huw hs
  have hbase : baseSqlType (u ++ s) = u := by
    unfold baseSqlType
    rw [htake]
    simp [hud]
  unfold sqlTypeToMalloyType
  rw [hbase, hu, hk]

/-- C2 witness: the amended theorem applied at the concrete inputs of the
claim, `"VarChar" ++ "(255)"` mapping to the string variant. -/
theorem sqlTypeToMalloyType_keyword_insensitive_witness :
    lookupMalloyType "varchar" = some .string ∧
    sqlTypeToMalloyType ("VarChar" ++ "(255)") = .string :=
  ⟨by decide,
   sqlTypeToMalloyType_keyword_insensitive "varchar" .string (by decide)
     (by decide) (by decide) "VarChar" (by decide) "(255)" (by decide)⟩

/-- C2 counterexample: `'varying character'` is a key of the supported
table mapping to the string variant, yet `sqlTypeToMalloyType` sends both
it and its case/modifier variants to sql-native (keyword extraction via
`/^(\w+)/` stops at the space, and `'varying'` alone is not a key), and
case is not ignored: the raw payloads differ. -/
theorem sqlTypeToMalloyType_multiword_counterexample :
    lookupMalloyType "varying character" = some .string ∧
    sqlTypeToMalloyType "varying character" = .sqlNative "varying character" ∧
    sqlTypeToMalloyType "VARYING CHARACTER(10)" =
      .sqlNative "VARYING CHARACTER(10)" ∧
    sqlTypeToMalloyType "VARYING CHARACTER(10)" ≠
      sqlTypeToMalloyType "varying character" :=
  ⟨by decide, by decide, by decide, by decide⟩

/-- C3: a native type string whose extracted lowercased keyword is not in
the supported table is never an error: `sqlTypeToMalloyType` (a total
function — the source never throws) returns the sql-native variant
carrying the original type string verbatim. -/
theorem sqlTypeToMalloyType_unknown_sql_native
    (s : String)
    (h : lookupMalloyType (jsToLower (baseSqlType s)) = none) :
    sqlTypeToMalloyType s = .sqlNative s := by
  unfold sqlTypeToMalloyType
  rw [h]

/-- C3 witness: `BLOB` is not a supported type and maps to sql-native
carrying `"BLOB"` verbatim. -/
theorem sqlTypeToMalloyType_unknown_sql_native_witness :
    lookupMalloyType (jsToLower (baseSqlType "BLOB")) = none ∧
    sqlTypeToMalloyType "BLOB" = .sqlNative "BLOB" :=
  ⟨by decide, sqlTypeToMalloyType_unknown_sql_native "BLOB" (by decide)⟩

end Malloy

namespace Malloy

/-! ## The windowed `set_concat` aggregate (`udf_functions.ts`)

`set_concat` returns an `AggergateUdfDefinition` with `start`/`step`/
`inverse`/`result`.  The accumulator holds a JS `Set` (modelled as an
insertion-ordered duplicate-free list), the captured separator, and the
(never updated) `set_sep` flag.  Values reaching the aggregate are JS
values; the ones relevant here are `null` and strings. -/

/-- A JS value as seen by the SQLite UDF bridge. -/
inductive JsVal where
  | vnull
  | vstr (s : String)
  | vnum (n : Int)
deriving DecidableEq, Repr

/-- Models `isNullOrUndefined` from the source (Lean model folds `undefined` into
`vnull`). -/
def isNullOrUndefined (v : JsVal) : Bool := v = .vnull

/-- JS `Array.prototype.join` element conversion (only the cases that can
reach `set_concat`). -/
def jsValToString : JsVal → String
  | .vnull => ""
  | .vstr s => s
  | .vnum n => toString n

/-- Models `Set.prototype.add`: insertion-ordered, ignores an already-present
value. -/
def jsSetAdd (set : List JsVal) (v : JsVal) : List JsVal :=
  if v ∈ set then set else set ++ [v]

/-- Models `Set.prototype.delete`: removes the value when present, no-op
otherwise. -/
def jsSetDelete (set : List JsVal) (v : JsVal) : List JsVal :=
  set.filter (· ≠ v)

/-- The accumulator `SetAggState` of `set_concat`. -/
structure SetAggState where
  set : List JsVal
  sep : Option String
  set_sep : Bool
deriving DecidableEq, Repr

/-- Embeds `set_concat().start()`. -/
def set_concat_start : SetAggState := ⟨[], none, false⟩

/-- Embeds `set_concat().step(acc, next, ...rest)`: captures a string first rest
argument as the separator (the `set_sep` flag is never written in the
source, so this re-captures on every such step), then adds a non-null
`next` into the set. -/
def set_concat_step (acc : SetAggState) (next : JsVal) (rest : List JsVal) :
    SetAggState :=
  let acc :=
    match acc.set_sep, rest.head? with
    | false, some (.vstr s) => {acc with sep := some s}
    | _, _ => acc
  if ¬isNullOrUndefined next then {acc with set := jsSetAdd acc.set next}
  else acc

/-- Embeds `set_concat().inverse(acc, dropped)`: deletes a non-null dropped value
from the set. -/
def set_concat_inverse (acc : SetAggState) (dropped : JsVal) : SetAggState :=
  if ¬isNullOrUndefined dropped then {acc with set := jsSetDelete acc.set dropped}
  else acc

/-- Embeds `set_concat().result(acc)`: joins the set's elements with the captured
separator, defaulting to a comma. -/
def set_concat_result (acc : SetAggState) : String :=
  String.intercalate (acc.sep.getD ",") (acc.set.map jsValToString)

/-- The state after `step a, step a, step b, inverse a` from `start()`,
with no auxiliary separator arguments. -/
def set_concat_aab_inv_a (a b : JsVal) : SetAggState :=
  set_concat_inverse
    (set_concat_step
      (set_concat_step (set_concat_step set_concat_start a []) a [])
      b [])
    a

/-- C1 counterexample: stepping `["a", "a", "b"]` and then inverting `"a"`
leaves a set containing only `"b"`; `result()` is `"b"`, which contains
`"a"` zero times (the claim requires exactly once — no `"a"` survives the
single inverse, because the JS `Set` deduplicated the second `"a"` and
`Set.delete` then removed the value outright). -/
theorem set_concat_aab_inverse_counterexample :
    (set_concat_aab_inv_a (.vstr "a") (.vstr "b")).set = [.vstr "b"] ∧
    set_concat_result (set_concat_aab_inv_a (.vstr "a") (.vstr "b")) = "b" ∧
    (set_concat_aab_inv_a (.vstr "a") (.vstr "b")).set.count (.vstr "a") = 0 ∧
    ('a' ∈ (set_concat_result (set_concat_aab_inv_a (.vstr "a") (.vstr "b"))).data)
      = False :=
  ⟨by decide, by decide, by decide, by decide⟩

/-- C1 (amended): for any two distinct values `a` and `b`, after `step`
calls adding `[a, a, b]` followed by `inverse(a)`, the accumulator's set
is exactly `[b]` and `result()` is the string for `b` alone: the duplicate
`a` is never double-counted (the set deduplicates it on the second step),
and consequently the single `inverse(a)` removes `a` entirely — no `a`
survives, membership-level rather than count-level inversion. -/
theorem set_concat_aab_inverse_amended (a b : String) (hab : a ≠ b) :
    (set_concat_aab_inv_a (.vstr a) (.vstr b)).set = [.vstr b] ∧
    set_concat_result (set_concat_aab_inv_a (.vstr a) (.vstr b)) = b := by
  have hne : (JsVal.vstr b) ≠ (JsVal.vstr a) := by
    intro h
    exact hab (JsVal.vstr.injEq b a ▸ h).symm
  have hset : (set_concat_aab_inv_a (.vstr a) (.vstr b)).set = [.vstr b] := by
    simp [set_concat_aab_inv_a, set_concat_start, set_concat_step,
      set_concat_inverse, isNullOrUndefined, jsSetAdd, jsSetDelete,
      hne, Ne.symm hne]
  refine ⟨hset, ?_⟩
  simp [set_concat_result, hset, jsValToString, String.intercalate,
    String.intercalate.go]

/-- C1 amended-claim witness at `a := "a"`, `b := "b"`. -/
theorem set_concat_aab_inverse_amended_witness :
    (set_concat_aab_inv_a (.vstr "a") (.vstr "b")).set = [.vstr "b"] ∧
    set_concat_result (set_concat_aab_inv_a (.vstr "a") (.vstr "b")) = "b" :=
  set_concat_aab_inverse_amended "a" "b" (by decide)

end Malloy

namespace Malloy

/-! ## Round to precision (`function_overrides.ts`)

`roundWithNegativePrecisionSQL` builds the SQL template for the
`round(value, precision)` overload; the rendered `IF` expression divides
by `POWER(10, ABS(precision))`, rounds, and multiplies back when the
precision is negative, and calls the native `ROUND` otherwise.  The
template's semantics are embedded over `ℚ` with the native `ROUND` left
as a parameter; `sqliteRound` is SQLite's native rounding (half away from
zero). -/

/-- Replace every non-overlapping occurrence of `pat` in the remaining
list, scanning left to right (fuel-structured so it computes in the
kernel; the fuel is the list length, enough since every step consumes at
least one character). -/
def replaceAllGo (pat repl : List Char) : ℕ → List Char → List Char
  | 0, l => l
  | _ + 1, [] => []
  | fuel + 1, c :: rest =>
    if pat.isPrefixOf (c :: rest) && !pat.isEmpty then
      repl ++ replaceAllGo pat repl fuel ((c :: rest).drop pat.length)
    else
      c :: replaceAllGo pat repl fuel rest

/-- Template placeholder substitution: replaces every occurrence of
the placeholder for `name` with `val`. -/
def substPlaceholder (tpl name val : String) : String :=
  ⟨replaceAllGo ("$\x7b" ++ name ++ "\x7d").data val.data tpl.data.length tpl.data⟩

/-- The exact template string returned by `roundWithNegativePrecisionSQL`. -/
def roundWithNegativePrecisionSQL : String :=
  "IF(${precision} < 0, ROUND(${value} / POWER(10, ABS(${precision}))) * POWER(10, ABS(${precision})), ROUND(${value}, ${precision}))"

/-- Round half away from zero to an integer. -/
def qround (x : ℚ) : ℤ := if 0 ≤ x then ⌊x + 1 / 2⌋ else ⌈x - 1 / 2⌉

/-- SQLite's native `ROUND(x, p)`: rounds half away from zero to `p`
decimal places (a negative `p` is treated as 0 by the native primitive,
which is exactly why the dialect guards it). -/
def sqliteRound (x : ℚ) (p : ℤ) : ℚ :=
  if 0 ≤ p then (qround (x * 10 ^ p.toNat) : ℚ) / 10 ^ p.toNat
  else (qround x : ℚ)

/-- The denotation of the rendered `IF` conditional, with the native
`ROUND` primitive as a parameter `nativeRound`. -/
def roundToPrecisionWith (nativeRound : ℚ → ℤ → ℚ) (value : ℚ)
    (precision : ℤ) : ℚ :=
  if precision < 0 then
    nativeRound (value / 10 ^ precision.natAbs) 0 * 10 ^ precision.natAbs
  else
    nativeRound value precision

/-- C4: the round-to-precision conditional (i) renders, after placeholder
substitution, to the expected `IF(p < 0, ROUND(v / POWER(10, ABS(p))) *
POWER(10, ABS(p)), ROUND(v, p))` text; semantically, for every native
rounding primitive, (ii) a negative precision divides by `10^|p|`, rounds
and multiplies back, (iii) a non-negative precision delegates unchanged to
the native primitive; and with SQLite's native `ROUND`, (iv)
`round(1250, -2)` yields the nearest hundred `1300` while (v)
`round(1250, 2)` is native rounding unchanged. -/
theorem roundToPrecision_correct (nr : ℚ → ℤ → ℚ) (v : ℚ) (p : ℤ) :
    (p < 0 →
      roundToPrecisionWith nr v p
        = nr (v / 10 ^ p.natAbs) 0 * 10 ^ p.natAbs) ∧
    (0 ≤ p → roundToPrecisionWith nr v p = nr v p) ∧
    roundToPrecisionWith sqliteRound 1250 (-2) = 1300 ∧
    roundToPrecisionWith sqliteRound 1250 2 = sqliteRound 1250 2 ∧
    substPlaceholder (substPlaceholder roundWithNegativePrecisionSQL
        "value" "X") "precision" "P"
      = "IF(P < 0, ROUND(X / POWER(10, ABS(P))) * POWER(10, ABS(P)), ROUND(X, P))" := by
  refine ⟨fun h => by simp [roundToPrecisionWith, h], fun h => by
    simp [roundToPrecisionWith, not_lt.mpr h], ?_, ?_, by decide⟩
  · norm_num [roundToPrecisionWith, sqliteRound, qround]
  · norm_num [roundToPrecisionWith]

/-- C4 witness: the two hypotheses discharged at `p = -2` and `p = 2`. -/
theorem roundToPrecision_correct_witness :
    roundToPrecisionWith sqliteRound 1250 (-2)
      = sqliteRound (1250 / 10 ^ (Int.natAbs (-2))) 0 * 10 ^ (Int.natAbs (-2)) ∧
    roundToPrecisionWith sqliteRound 1250 2 = sqliteRound 1250 2 :=
  ⟨(roundToPrecision_correct sqliteRound 1250 (-2)).1 (by decide),
   (roundToPrecision_correct sqliteRound 1250 2).2.1 (by decide)⟩

end Malloy

namespace Malloy

/-! ## Time literals (`sqlite.ts`, `sqlLiteralTime`)

A `TimeLiteralNode` carries a time type (`TD.isDate` distinguishes pure
dates from timestamps), the literal text, and an optional timezone; the
query may carry a default timezone, read by `qtz`.  A thrown `Error` is
modelled as `Except.error`.  JS `||` on strings treats the empty string
as falsy, which the model preserves. -/

/-- The time type of a `TimeLiteralNode`'s `typeDef`. -/
inductive TimeType where
  | date
  | timestamp
deriving DecidableEq, Repr

/-- The fields of `TimeLiteralNode` used by `sqlLiteralTime`. -/
structure TimeLiteralNode where
  typeDef : TimeType
  literal : String
  timezone : Option String
deriving DecidableEq, Repr

/-- The part of `QueryInfo` used here. Modelled from the spec: `qtz` (whose
source is not under `src/`) reads the query's default timezone from the
`QueryInfo`. -/
structure QueryInfo where
  queryTimezone : Option String
deriving DecidableEq, Repr

/-- Modelled from the spec: `qtz` returns the query's timezone, if any. -/
def qtz (qi : QueryInfo) : Option String := qi.queryTimezone

/-- JS truthiness of a string-or-undefined value: present and nonempty. -/
def jsTruthy (v : Option String) : Bool :=
  match v with
  | some s => !s.isEmpty
  | none => false

/-- JS `a || b` on string-or-undefined values. -/
def jsOrStr (a b : Option String) : Option String :=
  if jsTruthy a then a else b

/-- Embeds `SqliteDialect.sqlLiteralTime` from `sqlite.ts`: pure dates render as
`DATE('...')`; otherwise a timezone on the node or the query makes it
throw `Timezone not supported in SQLite`; a timezone-free timestamp
renders as `DATETIME('...')`. -/
def sqlLiteralTime (qi : QueryInfo) (lit : TimeLiteralNode) :
    Except String String :=
  if lit.typeDef = .date then
    .ok ("DATE('" ++ lit.literal ++ "')")
  else
    let tz := jsOrStr lit.timezone (qtz qi)
    if jsTruthy tz then
      .error "Timezone not supported in SQLite"
    else
      .ok ("DATETIME('" ++ lit.literal ++ "')")

/-- C5: for every timestamp literal whose node or query carries a
(nonempty) timezone, `sqlLiteralTime` returns a reported, catchable error
(never a silent rendering); every pure date literal renders as
`DATE('...')`; every timestamp literal with no timezone on the node or
query renders as `DATETIME('...')`. -/
theorem sqlLiteralTime_spec (qi : QueryInfo) (lit : TimeLiteralNode) :
    (lit.typeDef = .timestamp →
      (jsTruthy lit.timezone = true ∨ jsTruthy (qtz qi) = true) →
      sqlLiteralTime qi lit = .error "Timezone not supported in SQLite") ∧
    (lit.typeDef = .date →
      sqlLiteralTime qi lit = .ok ("DATE('" ++ lit.literal ++ "')")) ∧
    (lit.typeDef = .timestamp →
      jsTruthy lit.timezone = false → jsTruthy (qtz qi) = false →
      sqlLiteralTime qi lit = .ok ("DATETIME('" ++ lit.literal ++ "')")) := by
  refine ⟨fun ht htz => ?_, fun hd => by simp [sqlLiteralTime, hd], fun ht h1 h2 => ?_⟩
  · have hdz : jsTruthy (jsOrStr lit.timezone (qtz qi)) = true := by
      rcases htz with h | h
      · simp [jsOrStr, h]
      · by_cases hl : jsTruthy lit.timezone = true
        · simp [jsOrStr, hl]
        · simp only [Bool.not_eq_true] at hl
          simp [jsOrStr, hl, h]
    simp [sqlLiteralTime, ht, hdz]
  · have hdz : jsTruthy (jsOrStr lit.timezone (qtz qi)) = false := by
      simp [jsOrStr, h1, h2]
    simp [sqlLiteralTime, ht, hdz]

/-- C5 witness: a timezone-carrying timestamp literal errors; a pure date
literal and a timezone-free timestamp literal render. -/
theorem sqlLiteralTime_spec_witness :
    sqlLiteralTime ⟨none⟩ ⟨.timestamp, "2020-01-01 10:00:00", some "America/Mexico_City"⟩
      = .error "Timezone not supported in SQLite" ∧
    sqlLiteralTime ⟨none⟩ ⟨.date, "2020-01-01", none⟩ = .ok "DATE('2020-01-01')" ∧
    sqlLiteralTime ⟨none⟩ ⟨.timestamp, "2020-01-01 10:00:00", none⟩
      = .ok "DATETIME('2020-01-01 10:00:00')" :=
  ⟨(sqlLiteralTime_spec ⟨none⟩ _).1 rfl (.inl (by decide)),
   (sqlLiteralTime_spec ⟨none⟩ _).2.1 rfl,
   (sqlLiteralTime_spec ⟨none⟩ _).2.2 rfl (by decide) (by decide)⟩

end Malloy

namespace Malloy

/-! ## Connection construction and the minimum-version check
(`sqlite_connection.ts`)

`new SqliteConnection(...)` opens the database and then calls
`validateMinimumVersion()`, which probes `SELECT sqlite_version()` and
throws when the probe yields no version string or when
`SQLITE_MIN_VERSION.compare(version) === 1` (i.e. the floor is strictly
greater than the reported version).  The external `semver` comparison of
release versions is modelled as lexicographic comparison of
major/minor/patch triples. -/

/-- A parsed semver release version. -/
structure Version where
  major : ℕ
  minor : ℕ
  patch : ℕ
deriving DecidableEq, Repr

/-- Models `a.compare(b)` from the `semver` package, restricted to release
triples: `1` when `a > b`, `-1` when `a < b`, `0` when equal. -/
def versionCompare (a b : Version) : Int :=
  if a.major > b.major then 1 else if a.major < b.major then -1
  else if a.minor > b.minor then 1 else if a.minor < b.minor then -1
  else if a.patch > b.patch then 1 else if a.patch < b.patch then -1
  else 0

/-- Strict lexicographic order on versions ("below"). -/
def versionLt (a b : Version) : Prop :=
  a.major < b.major ∨
  (a.major = b.major ∧
    (a.minor < b.minor ∨ (a.minor = b.minor ∧ a.patch < b.patch)))

instance (a b : Version) : Decidable (versionLt a b) := by
  unfold versionLt
  infer_instance

/-- Embeds `SQLITE_MIN_VERSION = new semvar.SemVer('3.38.0')`. -/
def SQLITE_MIN_VERSION : Version := ⟨3, 38, 0⟩

/-- Embeds `validateMinimumVersion` from `sqlite_connection.ts`: `none` models a
probe whose row or `version` field is missing. -/
def validateMinimumVersion (probe : Option Version) : Except String Unit :=
  match probe with
  | none => .error "Failed to get sqlite version"
  | some v =>
    if versionCompare SQLITE_MIN_VERSION v = 1 then
      .error "Database is not at least the minimum version"
    else
      .ok ()

/-- The connection object produced by a successful construction. -/
structure SqliteConnection where
  name : String
deriving DecidableEq, Repr

/-- The `SqliteConnection` constructor: opens the database (external),
then validates the minimum version; a thrown error aborts construction,
so a connection value exists only on success. -/
def constructConnection (name : String) (probe : Option Version) :
    Except String SqliteConnection :=
  match validateMinimumVersion probe with
  | .error e => .error e
  | .ok () => .ok ⟨name⟩

/-- Helper: `versionCompare` returns `1` on every pair in the strict
lexicographic order. -/
theorem versionCompare_eq_one_of_lt (a b : Version) (h : versionLt b a) :
    versionCompare a b = 1 := by
  rcases a with ⟨am, an, ap⟩
  rcases b with ⟨bm, bn, bp⟩
  unfold versionLt at h
  unfold versionCompare
  dsimp only at h ⊢
  split_ifs with h1 h2 h3 h4 h5 h6 <;> omega

/-- C6: connection construction runs the version check; for every
reported version strictly below the floor, and for a failed version probe
returning no version string, construction aborts with an error and no
connection object is returned. -/
theorem constructConnection_version_floor (name : String)
    (v : Version) (hv : versionLt v SQLITE_MIN_VERSION) :
    (∃ e, constructConnection name (some v) = .error e) ∧
    (∀ c, constructConnection name (some v) ≠ .ok c) ∧
    (∃ e, constructConnection name none = .error e) ∧
    (∀ c, constructConnection name none ≠ .ok c) := by
  have h1 : versionCompare SQLITE_MIN_VERSION v = 1 :=
    versionCompare_eq_one_of_lt _ _ hv
  refine ⟨⟨"Database is not at least the minimum version", ?_⟩, ?_, ⟨"Failed to get sqlite version", rfl⟩, ?_⟩
  · simp [constructConnection, validateMinimumVersion, h1]
  · intro c
    simp [constructConnection, validateMinimumVersion, h1]
  · intro c
    simp [constructConnection, validateMinimumVersion]

/-- C6 witness: a 3.8.3 engine (the other floor seen in the sources'
history) is below the 3.38.0 floor and construction aborts. -/
theorem constructConnection_version_floor_witness :
    (∃ e, constructConnection "conn" (some ⟨3, 8, 3⟩) = .error e) ∧
    (∀ c, constructConnection "conn" (some ⟨3, 8, 3⟩) ≠ .ok c) ∧
    (∃ e, constructConnection "conn" none = .error e) ∧
    (∀ c, constructConnection "conn" none ≠ .ok c) :=
  constructConnection_version_floor "conn" ⟨3, 8, 3⟩ (by decide)

end Malloy

namespace Malloy

/-! ## Select-schema introspection (`sqlite_connection.ts`,
`fetchSelectSchema`)

`fetchSelectSchema` prepares the select statement and reads
`statement.columns()` — per better-sqlite3 (and the source's own comment)
a prepared statement runs only when iterated, which `fetchSelectSchema`
never does.  The calls the method issues against the engine are recorded
as an explicit trace; `prepare` and `columns` are metadata-only, while
`run`/`all` (used by `runSQL`/`executeSQL`) execute.  The engine's column
metadata for a prepared statement and the connection's type mapper are
parameters. -/

/-- One call against the underlying better-sqlite3 engine. -/
inductive EngineCall where
  | prepare (sql : String)
  | columns
  | run (sql : String)
  | all (sql : String)
deriving DecidableEq, Repr

/-- Does the call execute SQL (as opposed to only compiling it or reading
prepared-statement metadata)? -/
def isExecution : EngineCall → Bool
  | .run _ => true
  | .all _ => true
  | _ => false

/-- Effect of one engine call on the database state: only executing calls
can change it, via the side-effect semantics `exec` of the SQL text. -/
def applyCall {σ : Type} (exec : String → σ → σ) : EngineCall → σ → σ
  | .run sql, s => exec sql s
  | .all sql, s => exec sql s
  | .prepare _, s => s
  | .columns, s => s

/-- Effect of a trace of engine calls on the database state. -/
def applyTrace {σ : Type} (exec : String → σ → σ) (calls : List EngineCall)
    (s : σ) : σ :=
  calls.foldl (fun st c => applyCall exec c st) s

/-- Result-column metadata of a prepared statement
(better-sqlite3's `ColumnDefinition`; `type` may be `null`). -/
structure ColumnDefinition where
  name : String
  type : Option String
deriving DecidableEq, Repr

/-- An ad hoc select source request. -/
structure SQLSourceRequest where
  connection : String
  selectStr : String
deriving DecidableEq, Repr

/-- A canonical field definition: a name and its canonical atomic type. -/
structure FieldDef where
  name : String
  type : LeafAtomicTypeDef
deriving DecidableEq, Repr

/-- The `SQLSourceDef` produced by `fetchSelectSchema`. -/
structure SQLSourceDef where
  name : String
  connection : String
  selectStr : String
  fields : List FieldDef
deriving DecidableEq, Repr

/-- Modelled from the spec: `sqlKey` (not under `src/`) derives the
source's name from the connection name and the select text. -/
def sqlKey (connection selectStr : String) : String :=
  connection ++ "//" ++ selectStr

/-- Embeds `sqlLiteColumnToField`: maps a result column through the connection's
type mapper (`value.type || ''` guards a null native type). -/
def sqlLiteColumnToField (mapper : String → LeafAtomicTypeDef)
    (value : ColumnDefinition) : FieldDef :=
  ⟨value.name, mapper (value.type.getD "")⟩

/-- Embeds `fetchSelectSchema` from `sqlite_connection.ts`, with the trace of
engine calls it performs: it prepares the statement, reads the
result-column metadata `stmtColumns` of the prepared statement, and maps
each column through the type mapper.  It never iterates the statement. -/
def fetchSelectSchema (mapper : String → LeafAtomicTypeDef)
    (stmtColumns : String → List ColumnDefinition)
    (sqlSource : SQLSourceRequest) : SQLSourceDef × List EngineCall :=
  let columns := stmtColumns sqlSource.selectStr
  (⟨sqlKey sqlSource.connection sqlSource.selectStr,
    sqlSource.connection,
    sqlSource.selectStr,
    columns.map (sqlLiteColumnToField mapper)⟩,
   [.prepare sqlSource.selectStr, .columns])

/-- C7: `fetchSelectSchema` only prepares the statement and reads back
result-column metadata mapped through the type mapper: its engine-call
trace contains zero executing calls, so under every side-effect semantics
and every starting database state the state is unchanged — a
side-effecting subexpression of the select runs zero times. -/
theorem fetchSelectSchema_no_execution {σ : Type}
    (exec : String → σ → σ) (mapper : String → LeafAtomicTypeDef)
    (stmtColumns : String → List ColumnDefinition)
    (sqlSource : SQLSourceRequest) (s : σ) :
    applyTrace exec (fetchSelectSchema mapper stmtColumns sqlSource).2 s = s ∧
    ((fetchSelectSchema mapper stmtColumns sqlSource).2.countP
      (fun c => isExecution c)) = 0 ∧
    (fetchSelectSchema mapper stmtColumns sqlSource).1.fields
      = (stmtColumns sqlSource.selectStr).map
          (fun c => ⟨c.name, mapper (c.type.getD "")⟩) := by
  refine ⟨rfl, rfl, ?_⟩
  simp [fetchSelectSchema, sqlLiteColumnToField]

/-- C7 witness: under an incrementing side-effect semantics on `ℕ`,
running the trace of a concrete `fetchSelectSchema` leaves the state at
`0`. -/
theorem fetchSelectSchema_no_execution_witness :
    applyTrace (fun _ s => s + 1)
      (fetchSelectSchema (fun _ => .string)
        (fun _ => [⟨"n", some "int"⟩]) ⟨"c", "SELECT 1"⟩).2 (0 : ℕ) = 0 :=
  (fetchSelectSchema_no_execution (fun _ s => s + 1) (fun _ => .string)
    (fun _ => [⟨"n", some "int"⟩]) ⟨"c", "SELECT 1"⟩ 0).1

end Malloy

namespace Malloy

/-! ## `regexp_replace` with backreferences (`udf_functions.ts`)

`regexp_replace(input, pattern, replacement)` first tests the replacement
against `/\\\\(\d)/g` — as the strings arrive double-escaped, a
backreference token is *two* literal backslash characters followed by a
digit.  It then calls `input.replace(new RegExp(pattern, 'g'), cb)`.  The
JS regex engine itself is abstracted: the global-match decomposition of
the input is a parameter — a list of `(preceding segment, match)` pairs
plus a trailing segment, spliced back by `String.prototype.replace`.  A
match carries the matched text and the callback's rest arguments: the
capture groups (`none` for a group that did not participate), then the
match offset and the whole input (JS `(match, ...groups)` captures those
two trailing arguments as well). -/

/-- One match of the global regex, as seen by a JS replace callback. -/
structure JsMatch where
  matched : String
  captures : List (Option String)
  offset : ℕ
  input : String
deriving DecidableEq, Repr

/-- The callback's rest arguments `...groups`: the capture groups followed
by the offset (stringified, as it is spliced into a string) and the whole
input string. -/
def restArgs (m : JsMatch) : List (Option String) :=
  m.captures ++ [some (toString m.offset), some m.input]

/-- Models `/\\\\(\d)/.test(replacement)`: does the character list contain two
literal backslashes followed by a digit anywhere? -/
def hasBackrefToken : List Char → Bool
  | [] => false
  | c :: rest =>
    (match c, rest with
     | '\\', '\\' :: d :: _ => d.isDigit
     | _, _ => false) || hasBackrefToken rest

/-- Models `parseInt(n)` on the single captured digit. -/
def parseDigit (d : Char) : ℕ := d.toNat - '0'.toNat

/-- The inner replace callback `(_, n) => index === 0 ? match :
groups[index - 1] ?? ''`. -/
def substToken (m : JsMatch) (d : Char) : String :=
  let index := parseDigit d
  if index = 0 then m.matched
  else (((restArgs m)[index - 1]?).bind id).getD ""

/-- Embeds `replacement.replace(backreferencePattern, ...)`: replaces every
non-overlapping backreference token left to right (fuel-structured on the
list length so it computes in the kernel; each step consumes at least one
character). -/
def replaceBackrefsGo (m : JsMatch) : ℕ → List Char → List Char
  | 0, l => l
  | _ + 1, [] => []
  | fuel + 1, c :: rest =>
    match c, rest with
    | '\\', '\\' :: d :: rest2 =>
      if d.isDigit then (substToken m d).data ++ replaceBackrefsGo m fuel rest2
      else c :: replaceBackrefsGo m fuel rest
    | _, _ => c :: replaceBackrefsGo m fuel rest

/-- Expand every backreference token of the replacement against a match. -/
def replaceBackrefs (m : JsMatch) (repl : List Char) : List Char :=
  replaceBackrefsGo m repl.length repl

/-- Models `input.replace(regex-with-g-flag, cb)`: splices the unmatched
segments around the callback's output for each match. -/
def jsReplaceG (parts : List (String × JsMatch)) (tailStr : String)
    (cb : JsMatch → String) : String :=
  String.join (parts.map (fun pm => pm.1 ++ cb pm.2)) ++ tailStr

/-- Embeds `regexp_replace` from `udf_functions.ts` over the abstracted match
decomposition `parts`/`tailStr` of the input against the global pattern:
null propagation, backreference-mode detection, then the global replace
whose callback substitutes either the replacement literally or its
backreference expansion. -/
def regexp_replace (parts : List (String × JsMatch)) (tailStr : String)
    (input pattern replacement : Option String) : Option String :=
  match input, pattern, replacement with
  | some _, some _, some repl =>
    let backReferencesMode := hasBackrefToken repl.data
    some (jsReplaceG parts tailStr (fun m =>
      if !backReferencesMode then repl
      else ⟨replaceBackrefs m repl.data⟩))
  | _, _, _ => none

/-- A character between `'1'` and `'9'` is a digit. -/
theorem isDigit_of_one_le_le_nine {d : Char} (h1 : '1' ≤ d) (h9 : d ≤ '9') :
    d.isDigit = true := by
  simp only [Char.le_def, UInt32.le_def, BitVec.le_def] at h1 h9
  have e1 : ('1' : Char).val.toBitVec.toNat = 49 := rfl
  have e9 : ('9' : Char).val.toBitVec.toNat = 57 := rfl
  rw [e1] at h1
  rw [e9] at h9
  simp only [Char.isDigit, ge_iff_le, Bool.and_eq_true, decide_eq_true_eq,
    UInt32.le_def, BitVec.le_def]
  have e48 : (UInt32.toBitVec 48).toNat = 48 := rfl
  have e57 : (UInt32.toBitVec 57).toNat = 57 := rfl
  rw [e48, e57]
  omega

/-- The parsed index of a digit between `'1'` and `'9'` lies in `1..9`. -/
theorem parseDigit_bounds {d : Char} (h1 : '1' ≤ d) (h9 : d ≤ '9') :
    1 ≤ parseDigit d ∧ parseDigit d ≤ 9 := by
  simp only [Char.le_def, UInt32.le_def, BitVec.le_def] at h1 h9
  have e1 : ('1' : Char).val.toBitVec.toNat = 49 := rfl
  have e9 : ('9' : Char).val.toBitVec.toNat = 57 := rfl
  rw [e1] at h1
  rw [e9] at h9
  simp only [parseDigit, Char.toNat, UInt32.toNat]
  have e0 : ('0' : Char).val.toBitVec.toNat = 48 := rfl
  rw [e0]
  omega

/-- C9: over every match decomposition of the input and non-null
arguments: with no backreference token in the replacement,
`regexp_replace` substitutes the replacement literally for each match;
with the token `\0` (double-escaped: `\\0`) it substitutes the whole
match; with `\1`..`\9` it substitutes the corresponding capture group —
the empty string when that group did not participate (is `none`) —
provided the referenced group exists in the pattern. -/
theorem regexp_replace_backref_spec (parts : List (String × JsMatch))
    (tailStr inp pat : String) :
    (∀ repl : String, hasBackrefToken repl.data = false →
      regexp_replace parts tailStr (some inp) (some pat) (some repl)
        = some (String.join (parts.map (fun pm => pm.1 ++ repl)) ++ tailStr)) ∧
    (regexp_replace parts tailStr (some inp) (some pat)
        (some ⟨['\\', '\\', '0']⟩)
      = some (String.join (parts.map (fun pm => pm.1 ++ pm.2.matched))
          ++ tailStr)) ∧
    (∀ d : Char, '1' ≤ d → d ≤ '9' →
      (∀ pm ∈ parts, parseDigit d ≤ pm.2.captures.length) →
      regexp_replace parts tailStr (some inp) (some pat)
          (some ⟨['\\', '\\', d]⟩)
        = some (String.join (parts.map (fun pm =>
            pm.1 ++ ((pm.2.captures[parseDigit d - 1]?).bind id).getD ""))
            ++ tailStr)) := by
  have key : ∀ repl : String, hasBackrefToken repl.data = true →
      regexp_replace parts tailStr (some inp) (some pat) (some repl)
        = some (jsReplaceG parts tailStr
            (fun m => ⟨replaceBackrefs m repl.data⟩)) := by
    intro repl h
    simp [regexp_replace, h]
  refine ⟨fun repl h => by simp [regexp_replace, h, jsReplaceG], ?_, ?_⟩
  · rw [key _ (by decide)]
    refine congrArg some ?_
    unfold jsReplaceG
    congr 1
    refine congrArg String.join ?_
    apply List.map_congr_left
    intro pm _
    have hb : replaceBackrefs pm.2
        (String.data ⟨['\\', '\\', '0']⟩) = pm.2.matched.data := by
      simp [replaceBackrefs, replaceBackrefsGo, substToken, parseDigit]
    beta_reduce
    rw [hb]
  · intro d h1 h9 hlen
    have hdig : d.isDigit = true := isDigit_of_one_le_le_nine h1 h9
    have hidx := parseDigit_bounds h1 h9
    rw [key _ (by simp [hasBackrefToken, hdig])]
    refine congrArg some ?_
    unfold jsReplaceG
    congr 1
    refine congrArg String.join ?_
    apply List.map_congr_left
    intro pm hpm
    have hk := hlen pm hpm
    have hsub : substToken pm.2 d
        = ((pm.2.captures[parseDigit d - 1]?).bind id).getD "" := by
      unfold substToken
      rw [if_neg (by omega)]
      have hget : (restArgs pm.2)[parseDigit d - 1]?
          = pm.2.captures[parseDigit d - 1]? := by
        unfold restArgs
        exact List.getElem?_append_left (by omega)
      rw [hget]
    have hb : replaceBackrefs pm.2 (String.data ⟨['\\', '\\', d]⟩)
        = (substToken pm.2 d).data := by
      simp [replaceBackrefs, replaceBackrefsGo, hdig]
    beta_reduce
    rw [hb, hsub]

/-- C9 witness: a two-capture match (second group not participating),
exercised in literal mode, whole-match mode (`\\0`) and group mode
(`\\2`, yielding the empty string). -/
theorem regexp_replace_backref_spec_witness :
    regexp_replace [("x", ⟨"M", [some "g", none], 0, "xMy"⟩)] "y"
        (some "xMy") (some "p") (some "AB") = some "xABy" ∧
    regexp_replace [("x", ⟨"M", [some "g", none], 0, "xMy"⟩)] "y"
        (some "xMy") (some "p") (some ⟨['\\', '\\', '0']⟩) = some "xMy" ∧
    regexp_replace [("x", ⟨"M", [some "g", none], 0, "xMy"⟩)] "y"
        (some "xMy") (some "p") (some ⟨['\\', '\\', '2']⟩) = some "xy" := by
  refine ⟨?_, ?_, ?_⟩
  · have h := (regexp_replace_backref_spec
      [("x", ⟨"M", [some "g", none], 0, "xMy"⟩)] "y" "xMy" "p").1 "AB" (by decide)
    rw [h]
    decide
  · have h := (regexp_replace_backref_spec
      [("x", ⟨"M", [some "g", none], 0, "xMy"⟩)] "y" "xMy" "p").2.1
    rw [h]
    decide
  · have h := (regexp_replace_backref_spec
      [("x", ⟨"M", [some "g", none], 0, "xMy"⟩)] "y" "xMy" "p").2.2
      '2' (by decide) (by decide) (by decide)
    rw [h]
    decide

end Malloy

namespace Malloy

/-! ## Group-set emulation (`sqlite.ts`, `sqlGroupSetTable`) -/

/-- The integer tags synthesized for `groupSetCount` group sets:
`Array(groupSetCount + 1).fill(0).map((_, i) => i)`, i.e. `0..groupSetCount`. -/
def groupSetRows (groupSetCount : ℕ) : List ℕ :=
  List.range (groupSetCount + 1)

/-- Embeds `SqliteDialect.sqlGroupSetTable` from `sqlite.ts`: renders a
`VALUES (0), (1), ..., (n)` literal derived table cross-joined against
the main query. -/
def sqlGroupSetTable (groupSetCount : ℕ) : String :=
  let valueList := String.intercalate ", "
    ((groupSetRows groupSetCount).map (fun i => "(" ++ toString i ++ ")"))
  "CROSS JOIN (SELECT column1 as group_set FROM (VALUES " ++ valueList ++ "))"

/-- C8: for every non-negative group-set count `N`, the rendered group-set
emulation is the literal-values derived table whose row list is
`groupSetRows N`, and that list has exactly `N + 1` distinct integer tags,
namely the values `0..N` inclusive. -/
theorem sqlGroupSetTable_rows (N : ℕ) :
    sqlGroupSetTable N
      = "CROSS JOIN (SELECT column1 as group_set FROM (VALUES "
        ++ String.intercalate ", "
             ((groupSetRows N).map (fun i => "(" ++ toString i ++ ")"))
        ++ "))" ∧
    (groupSetRows N).length = N + 1 ∧
    (groupSetRows N).Nodup ∧
    (∀ i : ℕ, i ∈ groupSetRows N ↔ i ≤ N) := by
  refine ⟨rfl, by simp [groupSetRows], List.nodup_range _, fun i => ?_⟩
  simp [groupSetRows, Nat.lt_succ_iff]

/-- C8 witness: three group sets yield exactly four tag rows. -/
theorem sqlGroupSetTable_rows_witness :
    (groupSetRows 3).length = 3 + 1 :=
  (sqlGroupSetTable_rows 3).2.1

end Malloy

namespace Malloy

/-! ## Unicode-safe `reverse` (`udf_functions.ts`)

`reverse` maps null to null and otherwise returns
`Array.from(input).reverse().join('')`.  `Array.from` on a JS string
iterates by code points (keeping surrogate pairs together), so the
operation is exactly reversal of the code-point sequence — in the model,
reversal of the string's character list.  To state the contrast with raw
code units, the UTF-16 encoding of a string is defined below: a reversal
at code-point granularity keeps each multi-unit character's units in
order, which a code-unit reversal would not. -/

/-- Embeds `Array.from(input).reverse().join('')`: code-point reversal. -/
def reverse (input : Option String) : Option String :=
  match input with
  | none => none
  | some s => some ⟨s.data.reverse⟩

/-- The UTF-16 code units of one code point: one unit below `0x10000`, a
surrogate pair above. -/
def utf16Units (c : Char) : List ℕ :=
  if c.toNat < 0x10000 then [c.toNat]
  else
    let v := c.toNat - 0x10000
    [0xD800 + v / 0x400, 0xDC00 + v % 0x400]

/-- The UTF-16 code-unit sequence of a string. -/
def utf16 (s : String) : List ℕ := (s.data.map utf16Units).flatten

/-- The concrete astral-plane example: `"a𝄞b"` with U+1D11E, a character
that needs a surrogate pair in UTF-16. -/
def astralExample : String := ⟨['a', '𝄞', 'b']⟩

/-- C10: `reverse` is an involution on every unicode string (and maps
null to null); it reverses the code-point sequence — so the reversed
string's UTF-16 encoding is the per-character unit lists in reverse
order, each multi-unit character kept intact.  On the concrete
surrogate-pair example the character `𝄞` survives uncorrupted, while
reversing raw UTF-16 code units would differ. -/
theorem reverse_involution (s : String) :
    reverse (reverse (some s)) = some s ∧
    reverse none = none ∧
    reverse (some s) = some ⟨s.data.reverse⟩ ∧
    utf16 ⟨s.data.reverse⟩ = ((s.data.map utf16Units).reverse).flatten ∧
    reverse (some astralExample) = some ⟨['b', '𝄞', 'a']⟩ ∧
    utf16 ⟨astralExample.data.reverse⟩ ≠ (utf16 astralExample).reverse := by
  refine ⟨?_, rfl, rfl, ?_, by decide, by decide⟩
  · simp [reverse]
  · simp [utf16, List.map_reverse]

/-- C10 witness: the involution applied at the astral-plane example. -/
theorem reverse_involution_witness :
    reverse (reverse (some astralExample)) = some astralExample :=
  (reverse_involution astralExample).1

end Malloy
